import Mathlib

/-!
Shallow embedding of the capability-resolution layer of govee2mqtt's
`src/commands/http_control.rs`, together with the data model from
`src/http_api.rs` that it consumes.

Control values are opaque JSON values on the wire; we model the subset of
`serde_json::Value` that the resolver reads or constructs.  Machine integers
(`u8`, `u32`) are modelled as `Nat`; the only arithmetic performed on them
(`max`, `min`, shifts and ors of byte-sized channels) never overflows their
Rust types, so no modular reduction is needed.
-/

set_option autoImplicit false

namespace Govee

/-- Model of `serde_json::Value` as used by the resolver: enum option values
are opaque JSON payloads, and the music-mode strategy constructs one composite
object. -/
inductive Json where
  | null : Json
  | num : Nat → Json
  | str : String → Json
  | obj : List (String × Json) → Json

/-- The `EnumOption` record from `http_api.rs`, with fields name and value: a human-facing label and
the wire-level payload sent back unmodified. -/
structure EnumOption where
  name : String
  value : Json

mutual
/-- The `DeviceParameters` union from `http_api.rs`: the tagged union of parameter
schemas.  `Integer` carries an `IntegerRange`; the code only ever reads its
`min` and `max` fields (`step` is elided by `..` at every use site), so the
range is modelled by those two fields. -/
inductive DeviceParameters where
  | Integer : (min : Nat) → (max : Nat) → DeviceParameters
  | Enum : (options : List EnumOption) → DeviceParameters
  | Struct : (fields : List StructField) → DeviceParameters

/-- The `StructField` record from `http_api.rs`, with fields field_name and field_type. -/
inductive StructField where
  | mk : (field_name : String) → (field_type : DeviceParameters) → StructField
end

def StructField.field_name : StructField → String
  | .mk n _ => n

def StructField.field_type : StructField → DeviceParameters
  | .mk _ t => t

/-- A capability: a stable instance name plus its parameter schema. -/
structure Capability where
  instance_ : String
  parameters : DeviceParameters

/-- Observable effects of one command invocation: option names printed to the
console, and control requests handed to the device client
(`client.control_device(&device, &cap, value)`). -/
inductive Action where
  | printed : String → Action
  | control : Capability → Json → Action

/-- Outcome of one command invocation: the actions performed, in order, and
`some msg` when the invocation terminated with an error (`anyhow::bail!` /
`anyhow!`), `none` on success. -/
structure CmdResult where
  actions : List Action
  error : Option String

/-- ASCII-lowercase a character, as Rust's `to_ascii_lowercase` does on each
byte: `A`..`Z` map down by 32, everything else is untouched. -/
def asciiLower (c : Char) : Char :=
  if 'A' ≤ c && c ≤ 'Z' then Char.ofNat (c.toNat + 32) else c

/-- Rust's `str::eq_ignore_ascii_case`: equality after ASCII-lowercasing both
sides (non-ASCII characters compare exactly). -/
def eqIgnoreAsciiCase (a b : String) : Bool :=
  a.data.map asciiLower == b.data.map asciiLower

/-- Modelled from the spec: `Device::capability_by_instance` lives in
`http_api.rs`, which is not part of the sources here; per §4.1 it is a linear
search by exact instance name returning the first match or absence. -/
def capability_by_instance (device : List Capability) (name : String) :
    Option Capability :=
  device.find? (fun c => c.instance_ == name)

/-- Modelled from the spec: `Capability::enum_parameter_by_name` lives in
`http_api.rs`, which is not part of the sources here; per §4.2 the power
strategy requires an `Enum` schema and searches its options for an
exact-match name (exact case, not case-folded), resolving that option's
value. -/
def enum_parameter_by_name (cap : Capability) (name : String) : Option Json :=
  match cap.parameters with
  | .Enum options => (options.find? (fun o => o.name == name)).map (·.value)
  | _ => none

/-- The `SubCommand::On | SubCommand::Off` arm of `HttpControlCommand::run`:
look up the `powerSwitch` capability, resolve the enum option literally named
`"on"` or `"off"`, and issue one control call with its value. -/
def runOnOff (device : List Capability) (isOn : Bool) : CmdResult :=
  match capability_by_instance device "powerSwitch" with
  | none => ⟨[], some "device has no powerSwitch"⟩
  | some cap =>
    match enum_parameter_by_name cap (if isOn then "on" else "off") with
    | none => ⟨[], some "powerSwitch has no on/off!?"⟩
    | some value => ⟨[Action.control cap value], none⟩

/-- The `SubCommand::Brightness { percent }` arm: look up `brightness`,
require an `Integer` schema, and resolve `(*percent as u32).max(*min).min(*max)`. -/
def runBrightness (device : List Capability) (percent : Nat) : CmdResult :=
  match capability_by_instance device "brightness" with
  | none => ⟨[], some "device has no brightness"⟩
  | some cap =>
    match cap.parameters with
    | .Integer min max =>
      ⟨[Action.control cap (Json.num (Nat.min (Nat.max percent min) max))], none⟩
    | _ => ⟨[], some "unexpected parameter type for brightness"⟩

/-- The `SubCommand::Temperature { kelvin }` arm: look up `colorTemperatureK`,
require an `Integer` schema, and resolve `(*kelvin).max(*min).min(*max)`. -/
def runTemperature (device : List Capability) (kelvin : Nat) : CmdResult :=
  match capability_by_instance device "colorTemperatureK" with
  | none => ⟨[], some "device has no colorTemperatureK"⟩
  | some cap =>
    match cap.parameters with
    | .Integer min max =>
      ⟨[Action.control cap (Json.num (Nat.min (Nat.max kelvin min) max))], none⟩
    | _ => ⟨[], some "unexpected parameter type for colorTemperatureK"⟩

/-- The packing expression `((r as u32) << 16) | ((g as u32) << 8) | (b as u32)`: the 24-bit RGB
packing used by both the color command and the music-mode `rgb` field. -/
def pack_rgb (r g b : Nat) : Nat :=
  ((r <<< 16) ||| (g <<< 8)) ||| b

/-- The `SubCommand::Color { color }` arm: look up `colorRgb`, destructure the
input's `to_rgba8` bytes as `[r, g, b, _a]` (alpha discarded), and issue one
control call with the packed 24-bit value.  The input color is modelled by its
four `to_rgba8` channels. -/
def runColor (device : List Capability) (r g b a : Nat) : CmdResult :=
  match capability_by_instance device "colorRgb" with
  | none => ⟨[], some "device has no colorRgb"⟩
  | some cap =>
    match (r, g, b, a) with
    | (r, g, b, _a) => ⟨[Action.control cap (Json.num (pack_rgb r g b))], none⟩

/-- The inner `for opt in options` loop of the `SubCommand::Scene` arm: in
list mode print each option name; in activate mode compare the requested name
to each option name with `eq_ignore_ascii_case` and produce the control action
of the first match, which makes the whole command return.  Result: the actions
performed plus `some ctl` when an option matched (early `return Ok(())`). -/
def sceneScanOpts (list : Bool) (scene : Option String) (cap : Capability) :
    List EnumOption → List Action × Option Action
  | [] => ([], none)
  | opt :: rest =>
    if list then
      let (acts, ctl) := sceneScanOpts list scene cap rest
      (Action.printed opt.name :: acts, ctl)
    else
      match scene with
      | some s =>
        if eqIgnoreAsciiCase s opt.name then
          ([], some (Action.control cap opt.value))
        else
          sceneScanOpts list scene cap rest
      | none => sceneScanOpts list scene cap rest

/-- The `for cap in scene_caps` loop of the `SubCommand::Scene` arm, followed
by the post-loop `scene was not found` check.  A capability whose parameters
are not `Enum` aborts the whole command with `unexpected type`; a match inside
a capability returns immediately with just that control action. -/
def runSceneLoop (list : Bool) (scene : Option String) :
    List Capability → CmdResult
  | [] =>
    match scene with
    | some s => ⟨[], some ("scene '" ++ s ++ "' was not found")⟩
    | none => ⟨[], none⟩
  | cap :: rest =>
    match cap.parameters with
    | .Enum options =>
      match sceneScanOpts list scene cap options with
      | (acts, some ctl) => ⟨acts ++ [ctl], none⟩
      | (acts, none) =>
        let r := runSceneLoop list scene rest
        ⟨acts ++ r.actions, r.error⟩
    | _ => ⟨[], some "unexpected type"⟩

/-- The `SubCommand::Scene { list, scene }` arm of `HttpControlCommand::run`.
The scene capabilities come from the external `client.get_device_scenes` call
and are taken as input. -/
def runScene (scene_caps : List Capability) (list : Bool)
    (scene : Option String) : CmdResult :=
  runSceneLoop list scene scene_caps

/-- First field named `"musicMode"` of a struct's field list, as scanned by
the `for f in fields` loop inside `for_each_music_mode`. -/
def findMusicField : List StructField → Option DeviceParameters
  | [] => none
  | f :: rest =>
    if f.field_name == "musicMode" then some f.field_type
    else findMusicField rest

/-- The `for opt in options` loop inside `for_each_music_mode`: apply the
callback to each option in order, threading its captured state; stop with
`(s, false)` when the callback answers `false` (halt), finish with `(s, true)`
after the last option. -/
def applyOpts {σ : Type} (apply : σ → EnumOption → Except String (σ × Bool)) :
    σ → List EnumOption → Except String (σ × Bool)
  | s, [] => .ok (s, true)
  | s, opt :: rest =>
    match apply s opt with
    | .error e => .error e
    | .ok (s', cont) =>
      if cont then applyOpts apply s' rest else .ok (s', false)

/-- The `for_each_music_mode` helper from the `SubCommand::Music` arm: requires a
`Struct` schema, scans its fields for the first one named `"musicMode"`,
requires that field's type to be `Enum`, and folds the callback over its
options.  The callback's captured mutable state is threaded explicitly. -/
def for_each_music_mode {σ : Type}
    (apply : σ → EnumOption → Except String (σ × Bool))
    (parameters : DeviceParameters) (s : σ) : Except String (σ × Bool) :=
  match parameters with
  | .Struct fields =>
    match findMusicField fields with
    | some (.Enum options) => applyOpts apply s options
    | some _ => .error "unexpected type"
    | none => .error "musicMode not found"
  | _ => .error "unexpected type"

/-- The callback passed to `for_each_music_mode` in list mode: print each
option name and continue. -/
def musicPrinter (acts : List Action) (opt : EnumOption) :
    Except String (List Action × Bool) :=
  .ok (acts ++ [Action.printed opt.name], true)

/-- The callback passed to `for_each_music_mode` in activate mode: on the
first option whose name matches the requested mode case-insensitively, record
its value and halt; otherwise continue. -/
def musicFinder (mode : String) (mm : Option Json) (opt : EnumOption) :
    Except String (Option Json × Bool) :=
  if eqIgnoreAsciiCase opt.name mode then .ok (some opt.value, false)
  else .ok (mm, true)

/-- The `SubCommand::Music { list, mode, sensitivity, auto_color, color }` arm
of `HttpControlCommand::run`.  The optional input color is modelled by its
four `to_rgba8` channels; the composite control value is the `serde_json::json!`
object built in the source, with `rgb` null when no color was given. -/
def runMusic (device : List Capability) (list : Bool) (sensitivity : Nat)
    (auto_color : Bool) (color : Option (Nat × Nat × Nat × Nat))
    (mode : Option String) : CmdResult :=
  match capability_by_instance device "musicMode" with
  | none => ⟨[], some "device has no musicMode"⟩
  | some cap =>
    if list then
      match for_each_music_mode musicPrinter cap.parameters [] with
      | .error e => ⟨[], some e⟩
      | .ok (acts, _) => ⟨acts, none⟩
    else
      match mode with
      | some m =>
        match for_each_music_mode (musicFinder m) cap.parameters none with
        | .error e => ⟨[], some e⟩
        | .ok (mm, _) =>
          match mm with
          | none => ⟨[], some ("mode " ++ m ++ " not found")⟩
          | some music_mode =>
            ⟨[Action.control cap (Json.obj
                [("musicMode", music_mode),
                 ("sensitivity", Json.num sensitivity),
                 ("autoColor", Json.num (if auto_color then 1 else 0)),
                 ("rgb", match color with
                   | some (r, g, b, _a) => Json.num (pack_rgb r g b)
                   | none => Json.null)])], none⟩
      | none => ⟨[], none⟩

/-! Reference predicates used by the theorem statements. -/

/-- A capability carries an `Enum` parameter schema. -/
def capIsEnum (c : Capability) : Bool :=
  match c.parameters with
  | .Enum _ => true
  | _ => false

/-- A capability carries an `Enum` schema none of whose option names matches
the requested scene name case-insensitively. -/
def capEnumNoMatch (s : String) (c : Capability) : Bool :=
  match c.parameters with
  | .Enum opts => opts.all (fun o => !(eqIgnoreAsciiCase s o.name))
  | _ => false

/-- All option names carried by `Enum` scene capabilities, in capability order
then option order: exactly the names the list mode prints. -/
def sceneOptionNames : List Capability → List String
  | [] => []
  | c :: rest =>
    (match c.parameters with
     | .Enum opts => opts.map (fun o => o.name)
     | _ => []) ++ sceneOptionNames rest

/-- Clamping as the specification states it: values below the range floor go
to the floor, values above the ceiling to the ceiling, in-range values pass
through unchanged. -/
def clamp_spec (p lo hi : Nat) : Nat :=
  if p < lo then lo else if hi < p then hi else p

/-! Supporting lemmas. -/

theorem CmdResult.eta (r : CmdResult) : (⟨r.actions, r.error⟩ : CmdResult) = r := rfl

theorem capIsEnum_elim {c : Capability} (h : capIsEnum c = true) :
    ∃ opts, c.parameters = .Enum opts := by
  unfold capIsEnum at h
  cases hp : c.parameters with
  | Enum opts => exact ⟨opts, rfl⟩
  | Integer mn mx => rw [hp] at h; cases h
  | Struct fields => rw [hp] at h; cases h

theorem capEnumNoMatch_elim {s : String} {c : Capability}
    (h : capEnumNoMatch s c = true) :
    ∃ opts, c.parameters = .Enum opts ∧
      opts.find? (fun o => eqIgnoreAsciiCase s o.name) = none := by
  unfold capEnumNoMatch at h
  cases hp : c.parameters with
  | Enum opts =>
    refine ⟨opts, rfl, ?_⟩
    rw [hp] at h
    rw [List.find?_eq_none]
    intro o ho
    have := List.all_eq_true.mp h o ho
    simpa using this
  | Integer mn mx => rw [hp] at h; cases h
  | Struct fields => rw [hp] at h; cases h

theorem capEnumNoMatch_intro {s : String} {c : Capability} {opts : List EnumOption}
    (hp : c.parameters = .Enum opts)
    (hfind : opts.find? (fun o => eqIgnoreAsciiCase s o.name) = none) :
    capEnumNoMatch s c = true := by
  unfold capEnumNoMatch
  rw [hp]
  rw [List.find?_eq_none] at hfind
  refine List.all_eq_true.mpr fun o ho => ?_
  simpa using hfind o ho

theorem capIsEnum_of_noMatch {s : String} {c : Capability}
    (h : capEnumNoMatch s c = true) : capIsEnum c = true := by
  obtain ⟨opts, hp, -⟩ := capEnumNoMatch_elim h
  unfold capIsEnum
  rw [hp]

theorem find?_append_first {α : Type} (p : α → Bool) (pre : List α) (x : α)
    (post : List α) (hpre : ∀ a ∈ pre, p a = false) (hx : p x = true) :
    (pre ++ x :: post).find? p = some x := by
  induction pre with
  | nil => rw [List.nil_append]; exact List.find?_cons_of_pos _ hx
  | cons a l ih =>
    rw [List.cons_append, List.find?_cons_of_neg _ (by simp [hpre a (by simp)])]
    exact ih fun a ha => hpre a (by simp [ha])

theorem sceneScanOpts_list (scene : Option String) (cap : Capability)
    (opts : List EnumOption) :
    sceneScanOpts true scene cap opts =
      (opts.map (fun o => Action.printed o.name), none) := by
  induction opts with
  | nil => rfl
  | cons o rest ih => simp [sceneScanOpts, ih]

theorem sceneScanOpts_activate (s : String) (cap : Capability)
    (opts : List EnumOption) :
    sceneScanOpts false (some s) cap opts =
      match opts.find? (fun o => eqIgnoreAsciiCase s o.name) with
      | some o => ([], some (Action.control cap o.value))
      | none => ([], none) := by
  induction opts with
  | nil => rfl
  | cons o rest ih =>
    cases h : eqIgnoreAsciiCase s o.name with
    | true =>
      rw [List.find?_cons_of_pos _ (by simpa using h)]
      simp [sceneScanOpts, h]
    | false =>
      rw [List.find?_cons_of_neg _ (by simp [h])]
      simp only [sceneScanOpts, h]
      simpa using ih

theorem runSceneLoop_skip (s : String) (pre rest : List Capability)
    (hpre : ∀ c ∈ pre, capEnumNoMatch s c = true) :
    runSceneLoop false (some s) (pre ++ rest) = runSceneLoop false (some s) rest := by
  induction pre with
  | nil => rfl
  | cons c pre ih =>
    obtain ⟨opts, hp, hfind⟩ := capEnumNoMatch_elim (hpre c (by simp))
    rw [List.cons_append]
    simp only [runSceneLoop, hp, sceneScanOpts_activate, hfind]
    rw [ih fun c hc => hpre c (by simp [hc])]
    simp [CmdResult.eta]

theorem runSceneLoop_cons_not_enum (l : Bool) (sc : Option String)
    (bad : Capability) (rest : List Capability) (hbad : capIsEnum bad = false) :
    runSceneLoop l sc (bad :: rest) = ⟨[], some "unexpected type"⟩ := by
  unfold capIsEnum at hbad
  cases hb : bad.parameters with
  | Integer mn mx => simp [runSceneLoop, hb]
  | Enum opts => rw [hb] at hbad; cases hbad
  | Struct fields => simp [runSceneLoop, hb]

theorem runSceneLoop_list_append (sc : Option String) (pre rest : List Capability)
    (henum : ∀ c ∈ pre, capIsEnum c = true) :
    runSceneLoop true sc (pre ++ rest) =
      ⟨(sceneOptionNames pre).map Action.printed ++ (runSceneLoop true sc rest).actions,
       (runSceneLoop true sc rest).error⟩ := by
  induction pre with
  | nil => simp [sceneOptionNames, CmdResult.eta]
  | cons c pre ih =>
    obtain ⟨opts, hp⟩ := capIsEnum_elim (henum c (by simp))
    rw [List.cons_append]
    simp only [runSceneLoop, hp, sceneScanOpts_list]
    rw [ih fun c hc => henum c (by simp [hc])]
    simp [sceneOptionNames, hp, List.append_assoc]

theorem applyOpts_printer (acts : List Action) (opts : List EnumOption) :
    applyOpts musicPrinter acts opts =
      .ok (acts ++ opts.map (fun o => Action.printed o.name), true) := by
  induction opts generalizing acts with
  | nil => simp [applyOpts]
  | cons o rest ih => simp [applyOpts, musicPrinter, ih]

theorem applyOpts_finder (m : String) (mm : Option Json) (opts : List EnumOption) :
    applyOpts (musicFinder m) mm opts =
      match opts.find? (fun o => eqIgnoreAsciiCase o.name m) with
      | some o => .ok (some o.value, false)
      | none => .ok (mm, true) := by
  induction opts generalizing mm with
  | nil => rfl
  | cons o rest ih =>
    cases h : eqIgnoreAsciiCase o.name m with
    | true =>
      rw [List.find?_cons_of_pos _ (by simpa using h)]
      simp [applyOpts, musicFinder, h]
    | false =>
      rw [List.find?_cons_of_neg _ (by simp [h])]
      simp only [applyOpts, musicFinder, h]
      simpa using ih mm

theorem mode_msg_ne (m : String) :
    ("mode " ++ m ++ " not found") ≠ "musicMode not found" := by
  intro h
  have h2 : ("mode " ++ m ++ " not found").data = ("musicMode not found").data := by
    rw [h]
  rw [String.data_append, String.data_append] at h2
  have h3 : ("mode ").data = ['m', 'o', 'd', 'e', ' '] := rfl
  rw [h3] at h2
  simp only [List.cons_append, List.nil_append] at h2
  injection h2 with h4 h5
  injection h5 with h6 h7
  exact absurd h6 (by decide)

theorem two_pow_mul_lor_eq_add (n : Nat) : ∀ a b : Nat, b < 2 ^ n →
    ((a * 2 ^ n) ||| b) = a * 2 ^ n + b := by
  induction n with
  | zero =>
    intro a b h
    have hb : b = 0 := by omega
    subst hb
    simp
  | succ n ih =>
    intro a b h
    have hb2 : Nat.div2 b < 2 ^ n := by
      have hd := Nat.bodd_add_div2 b
      have : (Nat.bodd b).toNat ≤ 1 := Bool.toNat_le _
      rw [pow_succ] at h
      omega
    have h1 : a * 2 ^ (n + 1) = Nat.bit false (a * 2 ^ n) := by
      simp only [Nat.bit_val, Bool.toNat_false, Nat.add_zero]
      ring
    calc (a * 2 ^ (n + 1)) ||| b
        = Nat.bit false (a * 2 ^ n) ||| Nat.bit (Nat.bodd b) (Nat.div2 b) := by
          rw [← h1, Nat.bit_decomp]
      _ = Nat.bit (false || Nat.bodd b) ((a * 2 ^ n) ||| Nat.div2 b) :=
          Nat.lor_bit false (a * 2 ^ n) (Nat.bodd b) (Nat.div2 b)
      _ = Nat.bit (Nat.bodd b) (a * 2 ^ n + Nat.div2 b) := by
          rw [Bool.false_or, ih a (Nat.div2 b) hb2]
      _ = a * 2 ^ (n + 1) + b := by
          rw [Nat.bit_val]
          have hd := Nat.bodd_add_div2 b
          have h2 : a * 2 ^ (n + 1) = 2 * (a * 2 ^ n) := by ring
          rw [h2]
          generalize a * 2 ^ n = X at *
          omega

/-! Claim theorems. -/

/-- Claim C1: scene activation iterates the scene capabilities in order and,
within each, the options in order, comparing the requested name to each
option name case-insensitively; at the first match anywhere across the
capabilities it issues exactly one control call with that option's value and
stops — later options (`opost`) and later capabilities (`post`) are never
examined, as the result does not depend on them. -/
theorem scene_activation_first_match (pre post : List Capability)
    (cap : Capability) (opre opost : List EnumOption) (opt : EnumOption)
    (s : String)
    (hpre : ∀ c ∈ pre, capEnumNoMatch s c = true)
    (hcap : cap.parameters = .Enum (opre ++ opt :: opost))
    (hopre : ∀ o ∈ opre, eqIgnoreAsciiCase s o.name = false)
    (hopt : eqIgnoreAsciiCase s opt.name = true) :
    runScene (pre ++ cap :: post) false (some s) =
      ⟨[Action.control cap opt.value], none⟩ := by
  unfold runScene
  rw [runSceneLoop_skip s pre (cap :: post) hpre]
  have hfind := find?_append_first (fun o => eqIgnoreAsciiCase s o.name)
    opre opt opost hopre hopt
  simp [runSceneLoop, hcap, sceneScanOpts_activate, hfind]

/-- Claim C1 witness: the request "relax" skips a non-matching capability and
a non-matching option, resolves the first case-insensitive match (value 7),
and ignores a later duplicate option and a later matching capability. -/
theorem scene_activation_first_match_witness :
    runScene [⟨"diyScene", .Enum [⟨"Other", .num 9⟩]⟩,
        ⟨"lightScene", .Enum
          [⟨"Sunrise", .num 0⟩, ⟨"Relax", .num 7⟩, ⟨"RELAX", .num 8⟩]⟩,
        ⟨"snapshot", .Enum [⟨"relax", .num 5⟩]⟩] false (some "relax") =
      ⟨[Action.control
          ⟨"lightScene", .Enum
            [⟨"Sunrise", .num 0⟩, ⟨"Relax", .num 7⟩, ⟨"RELAX", .num 8⟩]⟩
          (.num 7)], none⟩ :=
  scene_activation_first_match
    [⟨"diyScene", .Enum [⟨"Other", .num 9⟩]⟩]
    [⟨"snapshot", .Enum [⟨"relax", .num 5⟩]⟩]
    ⟨"lightScene", .Enum
      [⟨"Sunrise", .num 0⟩, ⟨"Relax", .num 7⟩, ⟨"RELAX", .num 8⟩]⟩
    [⟨"Sunrise", .num 0⟩] [⟨"RELAX", .num 8⟩] ⟨"Relax", .num 7⟩ "relax"
    (by decide) rfl (by decide) (by decide)

/-- Claim C3: for every brightness input and every `brightness` capability
with an `Integer` schema over `[min, max]` with `min ≤ max`, the resolved
control value is the raw input clamped into `[min, max]`, with no rescaling
of the percentage into the capability's unit range. -/
theorem brightness_resolves_clamp (dev : List Capability) (cap : Capability)
    (mn mx p : Nat)
    (hcap : capability_by_instance dev "brightness" = some cap)
    (hp : cap.parameters = .Integer mn mx)
    (hrange : mn ≤ mx) :
    runBrightness dev p =
      ⟨[Action.control cap (Json.num (clamp_spec p mn mx))], none⟩ := by
  have hv : Nat.min (Nat.max p mn) mx = clamp_spec p mn mx := by
    unfold clamp_spec Nat.min Nat.max
    split_ifs <;> omega
  unfold runBrightness
  rw [hcap]
  simp only [hp, hv]

/-- Claim C3 witness: the spec's end-to-end example — range `[1, 100]`,
input `0`, resolved value `1`. -/
theorem brightness_resolves_clamp_witness :
    runBrightness [⟨"brightness", .Integer 1 100⟩] 0 =
      ⟨[Action.control ⟨"brightness", .Integer 1 100⟩ (Json.num 1)], none⟩ :=
  brightness_resolves_clamp [⟨"brightness", .Integer 1 100⟩]
    ⟨"brightness", .Integer 1 100⟩ 1 100 0 rfl rfl (by decide)

/-- Claim C4: name matching is asymmetric by intent — the power path matches
option names only against the exact-case literal "on", so a request that
could only resolve via an option named "On" fails, while the scene path
matches case-insensitively, so the request "SCENE1" resolves an option named
"scene1". -/
theorem power_exact_scene_case_insensitive (v w : Json) :
    runOnOff [⟨"powerSwitch", .Enum [⟨"On", v⟩]⟩] true =
        ⟨[], some "powerSwitch has no on/off!?"⟩
    ∧ runScene [⟨"lightScene", .Enum [⟨"scene1", w⟩]⟩] false (some "SCENE1") =
        ⟨[Action.control ⟨"lightScene", .Enum [⟨"scene1", w⟩]⟩ w], none⟩ :=
  ⟨rfl, rfl⟩

/-- Claim C5: RGB packing is a deterministic function of the r, g, b channels
alone — any two alpha values give identical results in both the color command
and the music-mode rgb field — and the packed value is the 24-bit integer
`(r <<< 16) ||| (g <<< 8) ||| b = r·2^16 + g·2^8 + b`; RGB (255, 0, 128)
packs to 0xFF0080. -/
theorem rgb_pack_alpha_independent (dev : List Capability)
    (r g b a1 a2 sens : Nat) (ac lst : Bool) (mode : Option String) :
    runColor dev r g b a1 = runColor dev r g b a2
    ∧ runMusic dev lst sens ac (some (r, g, b, a1)) mode
        = runMusic dev lst sens ac (some (r, g, b, a2)) mode
    ∧ pack_rgb 255 0 128 = 0xFF0080
    ∧ (r ≤ 255 → g ≤ 255 → b ≤ 255 →
        pack_rgb r g b = r * 2 ^ 16 + g * 2 ^ 8 + b) := by
  refine ⟨rfl, rfl, by decide, fun hr hg hb => ?_⟩
  unfold pack_rgb
  rw [Nat.shiftLeft_eq, Nat.shiftLeft_eq]
  have hA : (r * 2 ^ 16) ||| (g * 2 ^ 8) = r * 2 ^ 16 + g * 2 ^ 8 :=
    two_pow_mul_lor_eq_add 16 r (g * 2 ^ 8)
      (Nat.lt_of_le_of_lt (Nat.mul_le_mul_right _ hg)
        (by norm_num : (255 : ℕ) * 2 ^ 8 < 2 ^ 16))
  have hB : r * 2 ^ 16 + g * 2 ^ 8 = (r * 2 ^ 8 + g) * 2 ^ 8 := by ring
  rw [hA, hB, two_pow_mul_lor_eq_add 8 (r * 2 ^ 8 + g) b
    (Nat.lt_of_le_of_lt hb (by norm_num : (255 : ℕ) < 2 ^ 8))]

/-- Claim C5 witness: for in-range channels the packed value is the additive
24-bit composition; here for RGB (255, 0, 128). -/
theorem rgb_pack_alpha_independent_witness :
    pack_rgb 255 0 128 = 255 * 2 ^ 16 + 0 * 2 ^ 8 + 128 :=
  (rgb_pack_alpha_independent [] 255 0 128 0 1 0 false false none).2.2.2
    (by decide) (by decide) (by decide)

/-- Claim C2 counterexample: a `musicMode` capability whose `Struct` schema
carries an extra field besides `"musicMode"` is accepted — the music list
command succeeds and prints the enum's option — although the claim demands a
schema-mismatch failure for every `Struct` whose field set differs from the
single `"musicMode"` field. -/
theorem music_extra_field_accepted :
    runMusic [⟨"musicMode", .Struct
        [⟨"sensitivity", .Integer 0 100⟩,
         ⟨"musicMode", .Enum [⟨"Calm", .num 1⟩]⟩]⟩] true 100 false none none =
      ⟨[Action.printed "Calm"], none⟩ := rfl

/-- Claim C2 (amended): music-mode resolution requires the capability schema
to be a `Struct` whose first field named `"musicMode"` has `Enum` type.  A
non-`Struct` schema or a non-`Enum` `"musicMode"` field type fails with the
schema-mismatch error `unexpected type`; a `Struct` with no `"musicMode"`
field fails with `musicMode not found`; otherwise the option traversal runs —
fields other than `"musicMode"` are ignored rather than rejected. -/
theorem music_mode_schema_shape {σ : Type}
    (apply : σ → EnumOption → Except String (σ × Bool))
    (params : DeviceParameters) (s : σ) :
    ((∀ fields, params ≠ .Struct fields) →
        for_each_music_mode apply params s = .error "unexpected type")
    ∧ (∀ fields, params = .Struct fields →
        ((findMusicField fields = none →
            for_each_music_mode apply params s = .error "musicMode not found")
         ∧ (∀ t, findMusicField fields = some t → (∀ opts, t ≠ .Enum opts) →
            for_each_music_mode apply params s = .error "unexpected type")
         ∧ (∀ opts, findMusicField fields = some (.Enum opts) →
            for_each_music_mode apply params s = applyOpts apply s opts))) := by
  constructor
  · intro hns
    cases hp : params with
    | Struct fields => exact absurd hp (hns fields)
    | Integer mn mx => rfl
    | Enum opts => rfl
  · intro fields hp
    subst hp
    refine ⟨fun hf => ?_, fun t hf hne => ?_, fun opts hf => ?_⟩
    · simp [for_each_music_mode, hf]
    · cases t with
      | Enum opts => exact absurd rfl (hne opts)
      | Integer mn mx => simp [for_each_music_mode, hf]
      | Struct f2 => simp [for_each_music_mode, hf]
    · simp [for_each_music_mode, hf]

/-- Claim C2 witness: the amended schema rule applied to a `Struct` with an
extra field — the traversal runs over the `"musicMode"` enum's options and
the extra field is ignored. -/
theorem music_mode_schema_shape_witness :
    for_each_music_mode musicPrinter
        (.Struct [⟨"sensitivity", .Integer 0 100⟩,
                  ⟨"musicMode", .Enum [⟨"Calm", .num 1⟩]⟩]) ([] : List Action)
      = .ok ([Action.printed "Calm"], true) := by
  have h := ((music_mode_schema_shape musicPrinter
      (.Struct [⟨"sensitivity", .Integer 0 100⟩,
                ⟨"musicMode", .Enum [⟨"Calm", .num 1⟩]⟩]) ([] : List Action)).2
      _ rfl).2.2 [⟨"Calm", .num 1⟩] rfl
  rw [h, applyOpts_printer]
  rfl

/-- Claim C6: when music-mode activation finds a matching option, the single
control call's value is the composite object with the matched option's value
under `musicMode`, the sensitivity input passed through unclamped, `autoColor`
1 or 0 from the flag, and `rgb` the packed 24-bit integer when a color was
given, else null. -/
theorem music_activation_composite (dev : List Capability) (cap : Capability)
    (fields : List StructField) (opts : List EnumOption) (opt : EnumOption)
    (m : String) (sens : Nat) (ac : Bool)
    (col : Option (Nat × Nat × Nat × Nat))
    (hcap : capability_by_instance dev "musicMode" = some cap)
    (hs : cap.parameters = .Struct fields)
    (hf : findMusicField fields = some (.Enum opts))
    (hsens : sens ≤ 255)
    (hfind : opts.find? (fun o => eqIgnoreAsciiCase o.name m) = some opt) :
    runMusic dev false sens ac col (some m) =
      ⟨[Action.control cap (Json.obj
          [("musicMode", opt.value),
           ("sensitivity", Json.num sens),
           ("autoColor", Json.num (if ac then 1 else 0)),
           ("rgb", match col with
             | some (r, g, b, _a) => Json.num (pack_rgb r g b)
             | none => Json.null)])], none⟩ := by
  unfold runMusic
  rw [hcap]
  simp only [for_each_music_mode, hs, hf, applyOpts_finder, hfind,
    Bool.false_eq_true, if_false]

/-- Claim C6 witness: the spec's end-to-end example — options
`["Energetic", "Calm"]`, requested mode `"calm"`, sensitivity 50, auto-color
on, no color — resolves to the composite with Calm's value, sensitivity 50,
autoColor 1 and null rgb. -/
theorem music_activation_composite_witness :
    runMusic [⟨"musicMode", .Struct
        [⟨"musicMode", .Enum [⟨"Energetic", .num 5⟩, ⟨"Calm", .num 6⟩]⟩]⟩]
      false 50 true none (some "calm") =
      ⟨[Action.control
          ⟨"musicMode", .Struct
            [⟨"musicMode", .Enum [⟨"Energetic", .num 5⟩, ⟨"Calm", .num 6⟩]⟩]⟩
          (Json.obj
            [("musicMode", Json.num 6),
             ("sensitivity", Json.num 50),
             ("autoColor", Json.num 1),
             ("rgb", Json.null)])], none⟩ := by
  have h := music_activation_composite
    [⟨"musicMode", .Struct
        [⟨"musicMode", .Enum [⟨"Energetic", .num 5⟩, ⟨"Calm", .num 6⟩]⟩]⟩]
    ⟨"musicMode", .Struct
        [⟨"musicMode", .Enum [⟨"Energetic", .num 5⟩, ⟨"Calm", .num 6⟩]⟩]⟩
    [⟨"musicMode", .Enum [⟨"Energetic", .num 5⟩, ⟨"Calm", .num 6⟩]⟩]
    [⟨"Energetic", .num 5⟩, ⟨"Calm", .num 6⟩] ⟨"Calm", .num 6⟩
    "calm" 50 true none rfl rfl rfl (by decide) rfl
  exact h

/-- Claim C7: with the `musicMode` capability present and a `Struct` schema,
activation fails with `musicMode not found` exactly when the struct has no
field named `"musicMode"`, and with `mode _ not found` exactly when the
(first) `"musicMode"` field is an enum none of whose option names matches the
requested mode case-insensitively. -/
theorem music_not_found_exactly (dev : List Capability) (cap : Capability)
    (fields : List StructField) (m : String) (sens : Nat) (ac : Bool)
    (col : Option (Nat × Nat × Nat × Nat))
    (hcap : capability_by_instance dev "musicMode" = some cap)
    (hs : cap.parameters = .Struct fields) :
    ((runMusic dev false sens ac col (some m)).error
        = some "musicMode not found" ↔ findMusicField fields = none)
    ∧ (∀ opts, findMusicField fields = some (.Enum opts) →
        ((runMusic dev false sens ac col (some m)).error
            = some ("mode " ++ m ++ " not found")
          ↔ opts.find? (fun o => eqIgnoreAsciiCase o.name m) = none)) := by
  constructor
  · cases hf : findMusicField fields with
    | none =>
      simp [runMusic, hcap, for_each_music_mode, hs, hf]
    | some t =>
      cases t with
      | Enum opts =>
        simp only [runMusic, hcap, for_each_music_mode, hs, hf, applyOpts_finder]
        cases hfind : opts.find? (fun o => eqIgnoreAsciiCase o.name m) with
        | some o => simp
        | none => simp [mode_msg_ne m]
      | Integer mn mx =>
        simp [runMusic, hcap, for_each_music_mode, hs, hf]
      | Struct f2 =>
        simp [runMusic, hcap, for_each_music_mode, hs, hf]
  · intro opts hf
    simp only [runMusic, hcap, for_each_music_mode, hs, hf, applyOpts_finder]
    cases hfind : opts.find? (fun o => eqIgnoreAsciiCase o.name m) with
    | some o => simp
    | none => simp

/-- Claim C7 witness: a struct with no `"musicMode"` field fails with
`musicMode not found`, and a `"musicMode"` enum with no matching option fails
with `mode _ not found`. -/
theorem music_not_found_exactly_witness :
    (runMusic [⟨"musicMode", .Struct [⟨"other", .Enum [⟨"A", .num 0⟩]⟩]⟩]
        false 100 false none (some "calm")).error = some "musicMode not found"
    ∧ (runMusic [⟨"musicMode", .Struct
          [⟨"musicMode", .Enum [⟨"Energetic", .num 5⟩]⟩]⟩]
        false 100 false none (some "calm")).error
        = some ("mode " ++ "calm" ++ " not found") :=
  ⟨(music_not_found_exactly
      [⟨"musicMode", .Struct [⟨"other", .Enum [⟨"A", .num 0⟩]⟩]⟩]
      ⟨"musicMode", .Struct [⟨"other", .Enum [⟨"A", .num 0⟩]⟩]⟩
      [⟨"other", .Enum [⟨"A", .num 0⟩]⟩]
      "calm" 100 false none rfl rfl).1.mpr rfl,
   ((music_not_found_exactly
      [⟨"musicMode", .Struct [⟨"musicMode", .Enum [⟨"Energetic", .num 5⟩]⟩]⟩]
      ⟨"musicMode", .Struct [⟨"musicMode", .Enum [⟨"Energetic", .num 5⟩]⟩]⟩
      [⟨"musicMode", .Enum [⟨"Energetic", .num 5⟩]⟩]
      "calm" 100 false none rfl rfl).2 [⟨"Energetic", .num 5⟩] rfl).mpr rfl⟩

/-- Claim C8: scene activation over capabilities that all carry `Enum`
schemas fails with `scene '(name)' was not found` — performing no action, in
particular no control call — if and only if the requested name matches no
option name, case-insensitively, across all the capabilities. -/
theorem scene_not_found_iff (caps : List Capability) (s : String)
    (henum : ∀ c ∈ caps, capIsEnum c = true) :
    runScene caps false (some s) =
        ⟨[], some ("scene '" ++ s ++ "' was not found")⟩
      ↔ ∀ c ∈ caps, capEnumNoMatch s c = true := by
  unfold runScene
  induction caps with
  | nil => simp [runSceneLoop]
  | cons c rest ih =>
    obtain ⟨opts, hp⟩ := capIsEnum_elim (henum c (by simp))
    have ihr := ih fun x hx => henum x (by simp [hx])
    simp only [runSceneLoop, hp, sceneScanOpts_activate]
    cases hfind : opts.find? (fun o => eqIgnoreAsciiCase s o.name) with
    | some o =>
      constructor
      · intro h
        exact absurd (congrArg CmdResult.error h) (by simp)
      · intro h
        obtain ⟨opts', hp', hfind'⟩ := capEnumNoMatch_elim (h c (by simp))
        rw [hp] at hp'
        injection hp' with h'
        subst h'
        rw [hfind] at hfind'
        cases hfind'
    | none =>
      have hc : capEnumNoMatch s c = true := capEnumNoMatch_intro hp hfind
      show runSceneLoop false (some s) rest =
          ⟨[], some ("scene '" ++ s ++ "' was not found")⟩ ↔ _
      rw [ihr]
      simp [List.forall_mem_cons, hc]

/-- Claim C8 witness: a device whose only scene capability offers "Relax"
rejects the request "energize" with the not-found error and issues nothing. -/
theorem scene_not_found_iff_witness :
    runScene [⟨"lightScene", .Enum [⟨"Relax", .num 3⟩]⟩] false
        (some "energize") =
      ⟨[], some "scene 'energize' was not found"⟩ :=
  (scene_not_found_iff [⟨"lightScene", .Enum [⟨"Relax", .num 3⟩]⟩]
    "energize" (by decide)).mpr (by decide)

/-- Claim C9: invoking the scene subcommand with the list flag set and a
scene name also supplied prints every option name, issues no control call,
and always fails with the `was not found` error — the supplied name is never
compared against the options, so this holds even when it matches one. -/
theorem scene_list_with_name_always_fails (caps : List Capability) (s : String)
    (henum : ∀ c ∈ caps, capIsEnum c = true) :
    runScene caps true (some s) =
      ⟨(sceneOptionNames caps).map Action.printed,
       some ("scene '" ++ s ++ "' was not found")⟩
    ∧ ∀ c v, Action.control c v ∉ (sceneOptionNames caps).map Action.printed := by
  constructor
  · have h := runSceneLoop_list_append (some s) caps [] henum
    rw [List.append_nil] at h
    unfold runScene
    rw [h]
    simp [runSceneLoop]
  · intro c v h
    simp only [List.mem_map] at h
    obtain ⟨nm, -, h⟩ := h
    cases h

/-- Claim C9 witness: with list set, a supplied name that matches the sole
option case-insensitively is still reported as not found, after the option
names are printed and without any control call. -/
theorem scene_list_with_name_always_fails_witness :
    runScene [⟨"lightScene", .Enum [⟨"Relax", .num 3⟩]⟩] true (some "relax") =
      ⟨[Action.printed "Relax"], some "scene 'relax' was not found"⟩ :=
  (scene_list_with_name_always_fails
    [⟨"lightScene", .Enum [⟨"Relax", .num 3⟩]⟩] "relax" (by decide)).1

/-- Claim C10: a scene capability with a non-`Enum` schema aborts the whole
command with the schema-mismatch error as soon as it is reached — in
activation mode once the capabilities before it fail to match, and in list
mode after printing their options — and the result does not depend on the
capabilities after it (`post`), so a matching option there still yields
failure rather than activation. -/
theorem scene_bad_schema_aborts (pre post : List Capability) (bad : Capability)
    (s : String) (hbad : capIsEnum bad = false)
    (hpre : ∀ c ∈ pre, capEnumNoMatch s c = true) :
    runScene (pre ++ bad :: post) false (some s) =
        ⟨[], some "unexpected type"⟩
    ∧ runScene (pre ++ bad :: post) true (some s) =
        ⟨(sceneOptionNames pre).map Action.printed, some "unexpected type"⟩ := by
  constructor
  · unfold runScene
    rw [runSceneLoop_skip s pre (bad :: post) hpre,
      runSceneLoop_cons_not_enum false (some s) bad post hbad]
  · unfold runScene
    rw [runSceneLoop_list_append (some s) pre (bad :: post)
        (fun c hc => capIsEnum_of_noMatch (hpre c hc)),
      runSceneLoop_cons_not_enum true (some s) bad post hbad]
    simp

/-- Claim C10 witness: the non-`Enum` capability in the middle makes both
activation and list fail with the schema-mismatch error, although a later
capability holds an exact match for the requested scene. -/
theorem scene_bad_schema_aborts_witness :
    runScene [⟨"diyScene", .Enum [⟨"Other", .num 1⟩]⟩,
        ⟨"broken", .Integer 0 10⟩,
        ⟨"lightScene", .Enum [⟨"Match", .num 2⟩]⟩] false (some "match") =
      ⟨[], some "unexpected type"⟩
    ∧ runScene [⟨"diyScene", .Enum [⟨"Other", .num 1⟩]⟩,
        ⟨"broken", .Integer 0 10⟩,
        ⟨"lightScene", .Enum [⟨"Match", .num 2⟩]⟩] true (some "match") =
      ⟨[Action.printed "Other"], some "unexpected type"⟩ :=
  scene_bad_schema_aborts [⟨"diyScene", .Enum [⟨"Other", .num 1⟩]⟩]
    [⟨"lightScene", .Enum [⟨"Match", .num 2⟩]⟩] ⟨"broken", .Integer 0 10⟩
    "match" (by decide) (by decide)

end Govee
